import Mathlib

/-!
Shallow embedding of the OS/161-style process-id subsystem in
`src/kern/thread/pid.c`, together with proofs about its lifecycle
operations (`pid_alloc`, `pid_unalloc`, `pid_detach`, `pid_exit`,
`pid_join`) and the auxiliary helper `target_parent`.

Modelling conventions:
 * pids (`pid_t`, a signed C integer) are `Int`; the table is a
   `List (Option PidInfo)` of length `PROCS_MAX`, indexed by
   `pid % PROCS_MAX` exactly as the C array is.
 * The numeric constants `PROCS_MAX`, `PID_MIN`, `PID_MAX`,
   `INVALID_PID` and `BOOTUP_PID` come from kernel headers that are not
   part of this repository; they are therefore a parameter record
   `PidConfig`, constrained only by what the spec states about them
   (`PidConfig.WF`).
 * `kmalloc`/`cv_create` failure (the ENOMEM paths) is not modelled:
   allocation is taken to succeed.  `KASSERT` failures are modelled as
   an explicit panic outcome.  Lock operations do not change the table
   state; for `target_parent` the acquire/release balance is tracked
   explicitly because that is what the claim about it concerns.
 * Each operation returns, besides its result and the new table state,
   the list of records it passed to `pidinfo_destroy` (the `destroyed`
   field), so that the destruction-time invariant can be stated.
-/

/-- The kernel constants used by pid.c.  Modelled from the spec: the
values of `PROCS_MAX`, `PID_MIN`, `PID_MAX`, `INVALID_PID` and
`BOOTUP_PID` live in headers (`limits.h`, `pid.h`) that are not in the
repository, so they are kept abstract here. -/
structure PidConfig where
  PROCS_MAX : Nat
  PID_MIN : Int
  PID_MAX : Int
  INVALID_PID : Int
  BOOTUP_PID : Int
deriving Repr, DecidableEq

/-- Sanity facts the spec states about the constants: the table has
positive capacity, the pid range is nonempty, and the "no pid" sentinel
and the bootstrap pid are reserved values below `PID_MIN` (they are
never allocatable pids). -/
def PidConfig.WF (cfg : PidConfig) : Prop :=
  0 < cfg.PROCS_MAX ∧ cfg.PID_MIN ≤ cfg.PID_MAX ∧
    cfg.INVALID_PID < cfg.PID_MIN ∧ cfg.BOOTUP_PID < cfg.PID_MIN

instance (cfg : PidConfig) : Decidable cfg.WF := by
  unfold PidConfig.WF; infer_instance

/-- `struct pidinfo` (pid.c lines 53-60).  Note that `pidinfo_create`
does not initialize the `detached` field; creation therefore takes the
junk value found in the freshly kmalloc'd memory as an argument. -/
structure PidInfo where
  pi_pid : Int
  pi_ppid : Int
  pi_exited : Bool
  pi_exitstatus : Int
  detached : Bool
deriving Repr, DecidableEq

/-- The global mutable state of pid.c: the `pidinfo[PROCS_MAX]` hash
table, the `nextpid` cursor and the `nprocs` count (lines 71-74). -/
structure PidState where
  pidinfo : List (Option PidInfo)
  nextpid : Int
  nprocs : Int
deriving Repr, DecidableEq

/-- Slot of a pid in the hash table: `pid % PROCS_MAX`. -/
def slotOf (cfg : PidConfig) (pid : Int) : Nat :=
  (pid % (cfg.PROCS_MAX : Int)).toNat

/-- `pidinfo_create` (lines 81-106): fresh record with
`pi_exited = false`, `pi_exitstatus = 0xbaad`, parent as given.  The C
code never writes the `detached` field, so the record keeps whatever
bits the allocator returned; `junk_detached` stands for those bits. -/
def pidinfo_create (pid ppid : Int) (junk_detached : Bool) : PidInfo :=
  { pi_pid := pid
    pi_ppid := ppid
    pi_exited := false
    pi_exitstatus := 0xbaad
    detached := junk_detached }

/-- The `KASSERT`s of `pidinfo_destroy` (lines 113-119): a record may
only be destroyed when it has exited and its parent is the
`INVALID_PID` sentinel. -/
def pidinfo_destroy_pre (cfg : PidConfig) (pi : PidInfo) : Prop :=
  pi.pi_exited = true ∧ pi.pi_ppid = cfg.INVALID_PID

instance (cfg : PidConfig) (pi : PidInfo) : Decidable (pidinfo_destroy_pre cfg pi) := by
  unfold pidinfo_destroy_pre; infer_instance

/-- `pi_get` (lines 153-171): return the record in the pid's slot only
if its stored pid matches. -/
def pi_get (cfg : PidConfig) (s : PidState) (pid : Int) : Option PidInfo :=
  match s.pidinfo.getD (slotOf cfg pid) none with
  | none => none
  | some pi => if pi.pi_pid = pid then some pi else none

/-- `pi_put` (lines 177-188): store a record in the pid's slot and
increment `nprocs`.  (The C code asserts the slot is empty; all call
sites establish that.) -/
def pi_put (cfg : PidConfig) (s : PidState) (pid : Int) (pi : PidInfo) : PidState :=
  { s with
      pidinfo := s.pidinfo.set (slotOf cfg pid) (some pi)
      nprocs := s.nprocs + 1 }

/-- Overwrite the record stored in `pid`'s slot (a field update done
through a pointer in the C code). -/
def setRecord (cfg : PidConfig) (s : PidState) (pid : Int) (pi : PidInfo) : PidState :=
  { s with pidinfo := s.pidinfo.set (slotOf cfg pid) (some pi) }

/-- `pi_drop` (lines 195-210): destroy the record in the pid's slot,
clear the slot, decrement `nprocs`.  Returns the record that was handed
to `pidinfo_destroy`. -/
def pi_drop (cfg : PidConfig) (s : PidState) (pid : Int) : PidState × Option PidInfo :=
  let dropped := s.pidinfo.getD (slotOf cfg pid) none
  ({ s with
      pidinfo := s.pidinfo.set (slotOf cfg pid) none
      nprocs := s.nprocs - 1 }, dropped)

/-- `inc_nextpid` (lines 217-227): advance the cursor, wrapping from
`PID_MAX` back to `PID_MIN`. -/
def inc_nextpid (cfg : PidConfig) (np : Int) : Int :=
  if np + 1 > cfg.PID_MAX then cfg.PID_MIN else np + 1

/-- The scan loop of `pid_alloc` (lines 254-262): advance `nextpid`
past occupied slots.  The C loop asserts `count < PROCS_MAX*2+5`, so at
most `2*PROCS_MAX+5` occupied slots may be stepped over; running out of
fuel models that `KASSERT` firing (`none`). -/
def allocScan (cfg : PidConfig) (tbl : List (Option PidInfo)) :
    Nat → Int → Option Int
  | 0, np =>
      if (tbl.getD (slotOf cfg np) none).isSome then none else some np
  | fuel + 1, np =>
      if (tbl.getD (slotOf cfg np) none).isSome then
        allocScan cfg tbl fuel (inc_nextpid cfg np)
      else some np

/-- Outcome of `pid_alloc`. -/
inductive AllocResult where
  /-- Success: the new pid and the updated global state. -/
  | ok (pid : Int) (s : PidState)
  /-- `EAGAIN`: the table already holds `PROCS_MAX` records. -/
  | eagain
  /-- A `KASSERT` fired (the scan exceeded its defensive bound). -/
  | panicked
deriving Repr, DecidableEq

/-- `pid_alloc` (lines 232-280).  `caller` is `curthread->t_pid`;
`junk` is the uninitialized-memory value that ends up in the new
record's `detached` field.  The ENOMEM path is not modelled (record
creation is taken to succeed). -/
def pid_alloc (cfg : PidConfig) (caller : Int) (junk : Bool) (s : PidState) :
    AllocResult :=
  if s.nprocs = (cfg.PROCS_MAX : Int) then .eagain
  else
    match allocScan cfg s.pidinfo (2 * cfg.PROCS_MAX + 5) s.nextpid with
    | none => .panicked
    | some pid =>
        let pi := pidinfo_create pid caller junk
        let s1 := pi_put cfg s pid pi
        .ok pid { s1 with nextpid := inc_nextpid cfg pid }

/-- Outcome of `pid_unalloc`: either a `KASSERT` fired, or the record
was dropped. -/
structure UnallocOut where
  panicked : Bool
  s : PidState
  destroyed : List PidInfo
deriving Repr, DecidableEq

/-- `pid_unalloc` (lines 286-308): retract a just-allocated pid.  The
`KASSERT`s (pid in range, record present, not exited, caller is the
parent) are modelled as the panic outcome. -/
def pid_unalloc (cfg : PidConfig) (caller theirpid : Int) (s : PidState) :
    UnallocOut :=
  if cfg.PID_MIN ≤ theirpid ∧ theirpid ≤ cfg.PID_MAX then
    match pi_get cfg s theirpid with
    | none => ⟨true, s, []⟩
    | some them =>
        if them.pi_exited = false ∧ them.pi_ppid = caller then
          let them' := { them with
                          pi_exitstatus := 0xdead
                          pi_exited := true
                          pi_ppid := cfg.INVALID_PID }
          let s1 := setRecord cfg s theirpid them'
          let d := pi_drop cfg s1 theirpid
          ⟨false, d.1, d.2.toList⟩
        else ⟨true, s, []⟩
  else ⟨true, s, []⟩

/-- The error codes pid.c returns (numeric values live in
`kern/errno.h`, outside the repository). -/
inductive KErr where
  | EINVAL
  | ESRCH
  | EDEADLK
deriving Repr, DecidableEq

/-- Outcome of `pid_detach`: error (if any), the new state, and the
records destroyed. -/
structure DetachOut where
  err : Option KErr
  s : PidState
  destroyed : List PidInfo
deriving Repr, DecidableEq

/-- `pid_detach` (lines 315-363).  `caller` is `curthread->t_pid`.
Note the range check rejects only `INVALID_PID`, `BOOTUP_PID` and
`childpid < PID_MIN`; there is no `childpid > PID_MAX` test. -/
def pid_detach (cfg : PidConfig) (caller childpid : Int) (s : PidState) :
    DetachOut :=
  if childpid = cfg.INVALID_PID ∨ childpid = cfg.BOOTUP_PID ∨ childpid < cfg.PID_MIN then
    ⟨some .EINVAL, s, []⟩
  else
    match pi_get cfg s childpid with
    | none => ⟨some .ESRCH, s, []⟩
    | some child =>
        if child.pi_ppid = cfg.INVALID_PID then ⟨some .EINVAL, s, []⟩
        else if child.pi_ppid ≠ caller then ⟨some .EINVAL, s, []⟩
        else
          let child' := { child with pi_ppid := cfg.INVALID_PID, detached := true }
          let s1 := setRecord cfg s childpid child'
          if child'.pi_exited then
            let d := pi_drop cfg s1 child'.pi_pid
            ⟨none, d.1, d.2.toList⟩
          else ⟨none, s1, []⟩

/-- Outcome of `pid_exit`: whether a `KASSERT` (or a dereference of a
freed record) occurred, the new state, and the records destroyed. -/
structure ExitOut where
  panicked : Bool
  s : PidState
  destroyed : List PidInfo
deriving Repr, DecidableEq

/-- One iteration of the disown loop of `pid_exit` (lines 392-401):
if slot lookup of `i` finds a record whose parent is the exiting pid,
release the lock, call `pid_detach` on it, reacquire, and then write
`this_pid->detached = true` through the captured pointer.  When the
detach dropped the record that final write lands in freed memory and
has no effect on the table, which is what the `none` branch of the
re-lookup models. -/
def exitLoopBody (cfg : PidConfig) (mypid : Int)
    (acc : PidState × List PidInfo) (i : Int) : PidState × List PidInfo :=
  match pi_get cfg acc.1 i with
  | none => acc
  | some this_pid =>
      if this_pid.pi_ppid = mypid then
        let out := pid_detach cfg mypid this_pid.pi_pid acc.1
        let s' :=
          match pi_get cfg out.s this_pid.pi_pid with
          | some c => setRecord cfg out.s this_pid.pi_pid { c with detached := true }
          | none => out.s
        (s', acc.2 ++ out.destroyed)
      else acc

/-- The index list of the disown loop: `for (i = PID_MIN; i < PID_MAX; i++)`.
Note the strict bound: `PID_MAX` itself is never visited. -/
def exitLoopRange (cfg : PidConfig) : List Int :=
  (List.range (cfg.PID_MAX - cfg.PID_MIN).toNat).map (fun k => cfg.PID_MIN + (k : Int))

/-- `pid_exit` (lines 374-415).  `mypid` is `curthread->t_pid`.  The C
code reads `my_pi->detached` through the pointer captured before the
loop; the model re-fetches the record from the table, which coincides
with the pointer read whenever the record still exists, and reports a
panic (freed-memory dereference) when it does not. -/
def pid_exit (cfg : PidConfig) (mypid status : Int) (dodetach : Bool)
    (s : PidState) : ExitOut :=
  match pi_get cfg s mypid with
  | none => ⟨true, s, []⟩
  | some my_pi =>
      let my1 := { my_pi with pi_exited := true, pi_exitstatus := status }
      let s1 := setRecord cfg s mypid my1
      let r2 :=
        if dodetach then (exitLoopRange cfg).foldl (exitLoopBody cfg mypid) (s1, [])
        else (s1, [])
      match pi_get cfg r2.1 mypid with
      | none => ⟨true, r2.1, r2.2⟩
      | some my2 =>
          if my2.detached then
            let my3 := { my2 with pi_ppid := cfg.INVALID_PID }
            let s3 := setRecord cfg r2.1 mypid my3
            let d := pi_drop cfg s3 mypid
            ⟨false, d.1, r2.2 ++ d.2.toList⟩
          else ⟨false, r2.1, r2.2⟩

/-- The flag value `WNOHANG` tested by `pid_join`.  Modelled from the
spec: the constant lives in `kern/wait.h`, outside the repository; its
exact value is irrelevant, only the equality test matters. -/
def WNOHANG : Int := 1

/-- Outcome of `pid_join`: the return value (an error, or the `int` the
function returns), what was written through the `status` pointer,
whether the caller suspended on the condition variable, and whether a
null `status` pointer was dereferenced.  `pid_join` never modifies the
table. -/
structure JoinOut where
  err : Option KErr
  ret : Int
  wrote : Option Int
  blocked : Bool
  crash : Bool
  s : PidState
deriving Repr, DecidableEq

/-- `pid_join` (lines 423-493).  `caller` is `curthread->t_pid`;
`statusNull` says whether the `status` pointer is NULL.  In the
blocking case (`pi_exited` false, flag not `WNOHANG`) the thread
suspends in `cv_wait` and then falls through to the status-write block;
the model flags `blocked := true` and performs that block on the
pre-suspension record, which is what the code text does when read
single-threadedly. -/
def pid_join (cfg : PidConfig) (caller targetpid : Int) (statusNull : Bool)
    (flags : Int) (s : PidState) : JoinOut :=
  if targetpid = cfg.INVALID_PID ∨ targetpid = cfg.BOOTUP_PID ∨
      targetpid < cfg.PID_MIN ∨ targetpid > cfg.PID_MAX then
    ⟨some .EINVAL, 0, none, false, false, s⟩
  else
    match pi_get cfg s targetpid with
    | none => ⟨some .ESRCH, 0, none, false, false, s⟩
    | some target =>
        if target.pi_ppid = cfg.INVALID_PID then ⟨some .EINVAL, 0, none, false, false, s⟩
        else if targetpid = caller then ⟨some .EDEADLK, 0, none, false, false, s⟩
        else if target.pi_exited = false then
          if flags = WNOHANG then
            -- line 465: unconditional `*status = 0;`
            if statusNull then ⟨none, 0, none, false, true, s⟩
            else ⟨none, 0, some 0, false, false, s⟩
          else
            -- cv_wait, then the line-480 status write
            if statusNull then ⟨none, targetpid, none, true, false, s⟩
            else ⟨none, targetpid, some target.pi_exitstatus, true, false, s⟩
        else
          -- line 480: `if (status != NULL) *status = ...`
          if statusNull then ⟨none, targetpid, none, false, false, s⟩
          else ⟨none, targetpid, some target.pi_exitstatus, false, false, s⟩

/-- Outcome of `target_parent`: the returned `int` (or `none` when the
unchecked `pi_get` result is NULL and the dereference crashes), and the
number of times the pid lock is still held when control leaves the
function (acquires minus releases performed by the call). -/
structure TPOut where
  ret : Option Int
  lockBalance : Int
deriving Repr, DecidableEq

/-- `target_parent` (lines 499-509).  The function acquires `pidlock`
on entry and then, on both return paths, calls `lock_acquire` again —
there is no `lock_release` anywhere in it.  `lockBalance` counts the
acquires the call performs minus its releases. -/
def target_parent (cfg : PidConfig) (s : PidState) (targetpid parentpid : Int) :
    TPOut :=
  match pi_get cfg s targetpid with
  | none => ⟨none, 1⟩
  | some target =>
      if target.pi_ppid = parentpid then ⟨some 1, 2⟩
      else ⟨some 0, 2⟩

/-- Records currently stored in the table. -/
def liveRecords (s : PidState) : List PidInfo :=
  s.pidinfo.filterMap id

/-- Number of occupied slots. -/
def countLive (s : PidState) : Nat :=
  s.pidinfo.countP (fun o => o.isSome)

/-- Reachable-state invariant used as a hypothesis: every occupied slot
holds a record hashing to that slot (maintained by `pi_put`). -/
def SlotConsistent (cfg : PidConfig) (s : PidState) : Prop :=
  ∀ j < s.pidinfo.length, ∀ r : PidInfo,
    s.pidinfo.getD j none = some r → slotOf cfg r.pi_pid = j

instance (cfg : PidConfig) (s : PidState) : Decidable (SlotConsistent cfg s) := by
  unfold SlotConsistent; infer_instance

/-! ### Basic table lemmas -/

lemma getD_set_self (l : List (Option PidInfo)) (j : Nat) (x : Option PidInfo)
    (h : j < l.length) : (l.set j x).getD j none = x := by
  simp [List.getD_eq_getElem?_getD, List.getElem?_set_self h]

lemma getD_set_ne (l : List (Option PidInfo)) (i j : Nat) (x : Option PidInfo)
    (h : i ≠ j) : (l.set i x).getD j none = l.getD j none := by
  simp [List.getD_eq_getElem?_getD, List.getElem?_set, h]

lemma getD_some_lt (l : List (Option PidInfo)) (j : Nat) (r : PidInfo)
    (h : l.getD j none = some r) : j < l.length := by
  by_contra hj
  rw [List.getD_eq_getElem?_getD, List.getElem?_eq_none (Nat.le_of_not_lt hj)] at h
  simp at h

lemma mem_liveRecords_of_getD (s : PidState) (j : Nat) (r : PidInfo)
    (h : s.pidinfo.getD j none = some r) : r ∈ liveRecords s := by
  rw [List.getD_eq_getElem?_getD] at h
  have hj : s.pidinfo[j]? = some (some r) := by
    cases hx : s.pidinfo[j]? with
    | none => rw [hx] at h; simp at h
    | some o =>
        rw [hx] at h
        simp only [Option.getD_some] at h
        rw [h]
  have hm : (some r) ∈ s.pidinfo := List.getElem?_mem hj
  exact List.mem_filterMap.mpr ⟨some r, hm, rfl⟩

lemma pi_get_eq_some {cfg : PidConfig} {s : PidState} {pid : Int} {r : PidInfo}
    (h : pi_get cfg s pid = some r) :
    r.pi_pid = pid ∧ s.pidinfo.getD (slotOf cfg pid) none = some r ∧
      slotOf cfg pid < s.pidinfo.length := by
  unfold pi_get at h
  split at h
  · simp at h
  · rename_i pi hg
    split at h
    · rename_i hp
      obtain rfl : pi = r := Option.some.inj h
      exact ⟨hp, hg, getD_some_lt _ _ _ hg⟩
    · simp at h

lemma pi_drop_setRecord (cfg : PidConfig) (s : PidState) (pid : Int) (r : PidInfo)
    (h : slotOf cfg pid < s.pidinfo.length) :
    (pi_drop cfg (setRecord cfg s pid r) pid).2 = some r := by
  unfold pi_drop setRecord
  simp only []
  exact getD_set_self _ _ _ h

/-- Every record `pid_detach` destroys satisfies the
`pidinfo_destroy` preconditions: the success path only drops the child
after writing `pi_ppid := INVALID_PID`, and only when `pi_exited`. -/
lemma pid_detach_destroyed (cfg : PidConfig) (caller childpid : Int) (s : PidState) :
    ∀ r ∈ (pid_detach cfg caller childpid s).destroyed, pidinfo_destroy_pre cfg r := by
  intro r hr
  unfold pid_detach at hr
  split at hr
  · simp at hr
  · split at hr
    · simp at hr
    · rename_i child hg
      obtain ⟨hpid, hgd, hlt⟩ := pi_get_eq_some hg
      subst hpid
      split at hr
      · simp at hr
      · split at hr
        · simp at hr
        · dsimp only at hr
          split at hr
          · rename_i hex
            rw [pi_drop_setRecord cfg s child.pi_pid _ hlt] at hr
            simp only [Option.toList_some, List.mem_singleton] at hr
            subst hr
            exact ⟨hex, rfl⟩
          · simp at hr

/-- Every record `pid_unalloc` destroys satisfies the
`pidinfo_destroy` preconditions: the record is marked exited and
orphaned just before the drop. -/
lemma pid_unalloc_destroyed (cfg : PidConfig) (caller theirpid : Int) (s : PidState) :
    ∀ r ∈ (pid_unalloc cfg caller theirpid s).destroyed, pidinfo_destroy_pre cfg r := by
  intro r hr
  unfold pid_unalloc at hr
  split at hr
  · split at hr
    · simp at hr
    · rename_i them hg
      obtain ⟨hpid, hgd, hlt⟩ := pi_get_eq_some hg
      subst hpid
      split at hr
      · dsimp only at hr
        rw [pi_drop_setRecord cfg s them.pi_pid _ hlt] at hr
        simp only [Option.toList_some, List.mem_singleton] at hr
        subst hr
        exact ⟨rfl, rfl⟩
      · simp at hr
  · simp at hr

/-! ### Monotonicity of the disown loop -/

lemma getD_set_cases (l : List (Option PidInfo)) (i j : Nat) (x : Option PidInfo) :
    (l.set i x).getD j none = if i = j ∧ i < l.length then x else l.getD j none := by
  by_cases h1 : i = j
  · subst h1
    by_cases h2 : i < l.length
    · rw [getD_set_self _ _ _ h2, if_pos ⟨rfl, h2⟩]
    · rw [List.set_eq_of_length_le (Nat.le_of_not_lt h2), if_neg (by tauto)]
  · rw [getD_set_ne _ _ _ _ h1, if_neg (by tauto)]

/-- `B` is reachable from table `A` by steps that only drop records or
rewrite a record in place preserving its pid and exited flag. -/
def TblMono (A B : List (Option PidInfo)) : Prop :=
  ∀ (j : Nat) (r' : PidInfo), B.getD j none = some r' →
    ∃ r : PidInfo, A.getD j none = some r ∧ r'.pi_pid = r.pi_pid ∧
      r'.pi_exited = r.pi_exited

lemma tblMono_refl (A : List (Option PidInfo)) : TblMono A A :=
  fun _ r' h => ⟨r', h, rfl, rfl⟩

lemma tblMono_trans {A B C : List (Option PidInfo)}
    (h1 : TblMono A B) (h2 : TblMono B C) : TblMono A C := by
  intro j r' h
  obtain ⟨rb, hb, hp1, he1⟩ := h2 j r' h
  obtain ⟨ra, ha, hp2, he2⟩ := h1 j rb hb
  exact ⟨ra, ha, hp1.trans hp2, he1.trans he2⟩

lemma tblMono_set_none (A : List (Option PidInfo)) (i : Nat) :
    TblMono A (A.set i none) := by
  intro j r' h
  rw [getD_set_cases] at h
  split at h
  · simp at h
  · exact ⟨r', h, rfl, rfl⟩

lemma tblMono_set_keep (A : List (Option PidInfo)) (i : Nat) (r r' : PidInfo)
    (hg : A.getD i none = some r) (hp : r'.pi_pid = r.pi_pid)
    (he : r'.pi_exited = r.pi_exited) : TblMono A (A.set i (some r')) := by
  intro j q h
  rw [getD_set_cases] at h
  split at h
  · rename_i hc
    obtain rfl := hc.1
    obtain rfl : r' = q := Option.some.inj h
    exact ⟨r, hg, hp, he⟩
  · exact ⟨q, h, rfl, rfl⟩

lemma pid_detach_mono (cfg : PidConfig) (caller childpid : Int) (s : PidState) :
    TblMono s.pidinfo (pid_detach cfg caller childpid s).s.pidinfo := by
  unfold pid_detach
  split
  · exact tblMono_refl _
  · split
    · exact tblMono_refl _
    · rename_i child hg
      obtain ⟨hpid, hgd, hlt⟩ := pi_get_eq_some hg
      subst hpid
      split
      · exact tblMono_refl _
      · split
        · exact tblMono_refl _
        · dsimp only
          split
          · refine tblMono_trans
              (tblMono_set_keep s.pidinfo (slotOf cfg child.pi_pid) child
                { child with pi_ppid := cfg.INVALID_PID, detached := true } hgd rfl rfl) ?_
            exact tblMono_set_none
              (s.pidinfo.set (slotOf cfg child.pi_pid)
                (some { child with pi_ppid := cfg.INVALID_PID, detached := true }))
              (slotOf cfg child.pi_pid)
          · exact tblMono_set_keep s.pidinfo (slotOf cfg child.pi_pid) child
              { child with pi_ppid := cfg.INVALID_PID, detached := true } hgd rfl rfl

lemma exitLoopBody_mono (cfg : PidConfig) (mypid : Int)
    (acc : PidState × List PidInfo) (i : Int) :
    TblMono acc.1.pidinfo (exitLoopBody cfg mypid acc i).1.pidinfo := by
  unfold exitLoopBody
  split
  · exact tblMono_refl _
  · rename_i this_pid hg
    split
    · dsimp only
      refine tblMono_trans (pid_detach_mono cfg mypid this_pid.pi_pid acc.1) ?_
      split
      · rename_i c hc
        obtain ⟨hcp, hcg, hclt⟩ := pi_get_eq_some hc
        unfold setRecord
        exact tblMono_set_keep _ _ c _ hcg rfl rfl
      · exact tblMono_refl _
    · exact tblMono_refl _

lemma foldl_exitLoopBody_mono (cfg : PidConfig) (mypid : Int) :
    ∀ (l : List Int) (acc : PidState × List PidInfo),
      TblMono acc.1.pidinfo ((l.foldl (exitLoopBody cfg mypid) acc)).1.pidinfo := by
  intro l
  induction l with
  | nil => intro acc; exact tblMono_refl _
  | cons a t ih =>
      intro acc
      exact tblMono_trans (exitLoopBody_mono cfg mypid acc a)
        (ih (exitLoopBody cfg mypid acc a))

lemma exitLoopBody_destroyed (cfg : PidConfig) (mypid : Int)
    (acc : PidState × List PidInfo) (i : Int)
    (h : ∀ r ∈ acc.2, pidinfo_destroy_pre cfg r) :
    ∀ r ∈ (exitLoopBody cfg mypid acc i).2, pidinfo_destroy_pre cfg r := by
  unfold exitLoopBody
  split
  · exact h
  · rename_i this_pid hg
    split
    · dsimp only
      intro r hr
      rw [List.mem_append] at hr
      rcases hr with hr | hr
      · exact h r hr
      · exact pid_detach_destroyed cfg mypid this_pid.pi_pid acc.1 r hr
    · exact h

lemma foldl_exitLoopBody_destroyed (cfg : PidConfig) (mypid : Int) :
    ∀ (l : List Int) (acc : PidState × List PidInfo),
      (∀ r ∈ acc.2, pidinfo_destroy_pre cfg r) →
      ∀ r ∈ ((l.foldl (exitLoopBody cfg mypid) acc)).2, pidinfo_destroy_pre cfg r := by
  intro l
  induction l with
  | nil => intro acc h; exact h
  | cons a t ih =>
      intro acc h
      exact ih (exitLoopBody cfg mypid acc a) (exitLoopBody_destroyed cfg mypid acc a h)

/-- Every record `pid_exit` destroys satisfies the `pidinfo_destroy`
preconditions: children dropped via `pid_detach` were exited and were
just orphaned, and the self-drop happens after `pi_exited := true` (set
at entry and preserved by the disown loop) and `pi_ppid := INVALID_PID`. -/
lemma pid_exit_destroyed (cfg : PidConfig) (mypid status : Int) (dodetach : Bool)
    (s : PidState) :
    ∀ r ∈ (pid_exit cfg mypid status dodetach s).destroyed, pidinfo_destroy_pre cfg r := by
  unfold pid_exit
  split
  · intro r hr; simp at hr
  · rename_i my_pi hg
    obtain ⟨hpid, hgd, hlt⟩ := pi_get_eq_some hg
    subst hpid
    dsimp only
    -- name the post-loop pair
    set my1 : PidInfo := { my_pi with pi_exited := true, pi_exitstatus := status } with hmy1
    set s1 := setRecord cfg s my_pi.pi_pid my1 with hs1
    set r2 := (if dodetach then
        (exitLoopRange cfg).foldl (exitLoopBody cfg my_pi.pi_pid) (s1, [])
      else (s1, [])) with hr2
    have hds : ∀ r ∈ r2.2, pidinfo_destroy_pre cfg r := by
      rw [hr2]
      split
      · exact foldl_exitLoopBody_destroyed cfg my_pi.pi_pid (exitLoopRange cfg) (s1, [])
          (by intro r hr; simp at hr)
      · intro r hr; simp at hr
    have hmono : TblMono s1.pidinfo r2.1.pidinfo := by
      rw [hr2]
      split
      · exact foldl_exitLoopBody_mono cfg my_pi.pi_pid (exitLoopRange cfg) (s1, [])
      · exact tblMono_refl _
    split
    · exact hds
    · rename_i my2 hg2
      obtain ⟨hpid2, hgd2, hlt2⟩ := pi_get_eq_some hg2
      have hex2 : my2.pi_exited = true := by
        obtain ⟨rr, hrr, hrp, hre⟩ := hmono (slotOf cfg my_pi.pi_pid) my2 hgd2
        have hs1get : s1.pidinfo.getD (slotOf cfg my_pi.pi_pid) none = some my1 := by
          rw [hs1]
          unfold setRecord
          exact getD_set_self _ _ _ hlt
        rw [hs1get] at hrr
        obtain rfl : my1 = rr := Option.some.inj hrr
        rw [hre]
      split
      · intro r hr
        dsimp only at hr
        rw [pi_drop_setRecord cfg r2.1 my_pi.pi_pid _ hlt2] at hr
        rw [List.mem_append] at hr
        rcases hr with hr | hr
        · exact hds r hr
        · simp only [Option.toList_some, List.mem_singleton] at hr
          subst hr
          exact ⟨hex2, rfl⟩
      · exact hds

/-! ### Allocation lemmas -/

lemma slotOf_lt (cfg : PidConfig) (h : 0 < cfg.PROCS_MAX) (pid : Int) :
    slotOf cfg pid < cfg.PROCS_MAX := by
  unfold slotOf
  have hp : (0 : Int) < (cfg.PROCS_MAX : Int) := by exact_mod_cast h
  have h1 := Int.emod_lt_of_pos pid hp
  have h2 := Int.emod_nonneg pid (by omega : (cfg.PROCS_MAX : Int) ≠ 0)
  omega

lemma inc_nextpid_range (cfg : PidConfig) (hle : cfg.PID_MIN ≤ cfg.PID_MAX)
    (np : Int) (h1 : cfg.PID_MIN ≤ np) :
    cfg.PID_MIN ≤ inc_nextpid cfg np ∧ inc_nextpid cfg np ≤ cfg.PID_MAX := by
  unfold inc_nextpid
  split <;> omega

lemma allocScan_range (cfg : PidConfig) (hle : cfg.PID_MIN ≤ cfg.PID_MAX)
    (tbl : List (Option PidInfo)) :
    ∀ (fuel : Nat) (np : Int), cfg.PID_MIN ≤ np → np ≤ cfg.PID_MAX →
      ∀ pid, allocScan cfg tbl fuel np = some pid →
        cfg.PID_MIN ≤ pid ∧ pid ≤ cfg.PID_MAX := by
  intro fuel
  induction fuel with
  | zero =>
      intro np h1 h2 pid h
      unfold allocScan at h
      split at h
      · simp at h
      · obtain rfl := Option.some.inj h
        exact ⟨h1, h2⟩
  | succ f ih =>
      intro np h1 h2 pid h
      unfold allocScan at h
      split at h
      · obtain ⟨g1, g2⟩ := inc_nextpid_range cfg hle np h1
        exact ih (inc_nextpid cfg np) g1 g2 pid h
      · obtain rfl := Option.some.inj h
        exact ⟨h1, h2⟩

lemma allocScan_empty (cfg : PidConfig) (tbl : List (Option PidInfo)) :
    ∀ (fuel : Nat) (np pid : Int), allocScan cfg tbl fuel np = some pid →
      tbl.getD (slotOf cfg pid) none = none := by
  intro fuel
  induction fuel with
  | zero =>
      intro np pid h
      unfold allocScan at h
      split at h
      · simp at h
      · rename_i hocc
        obtain rfl := Option.some.inj h
        exact Option.not_isSome_iff_eq_none.mp hocc
  | succ f ih =>
      intro np pid h
      unfold allocScan at h
      split at h
      · exact ih (inc_nextpid cfg np) pid h
      · rename_i hocc
        obtain rfl := Option.some.inj h
        exact Option.not_isSome_iff_eq_none.mp hocc

lemma countP_set_some (l : List (Option PidInfo)) (j : Nat) (x : PidInfo)
    (hj : j < l.length) (h : l.getD j none = none) :
    (l.set j (some x)).countP (fun o => o.isSome) =
      l.countP (fun o => o.isSome) + 1 := by
  have hjv : l[j] = none := by
    rw [List.getD_eq_getElem?_getD, List.getElem?_eq_getElem hj] at h
    simpa using h
  rw [List.countP_set _ _ _ _ hj, hjv]
  simp

lemma getD_eq_some_index (l : List (Option PidInfo)) (r : PidInfo)
    (h : (some r) ∈ l) : ∃ j, j < l.length ∧ l.getD j none = some r := by
  obtain ⟨j, hj⟩ := List.mem_iff_getElem?.mp h
  refine ⟨j, ?_, ?_⟩
  · exact (List.getElem?_eq_some.mp hj).1
  · rw [List.getD_eq_getElem?_getD, hj]
    rfl

lemma pid_alloc_spec (cfg : PidConfig) (caller : Int) (junk : Bool) (s : PidState)
    (hWF : cfg.WF) (hlen : s.pidinfo.length = cfg.PROCS_MAX)
    (hcnt : s.nprocs = (countLive s : Int)) (hslots : SlotConsistent cfg s)
    (hnp1 : cfg.PID_MIN ≤ s.nextpid) (hnp2 : s.nextpid ≤ cfg.PID_MAX) :
    (pid_alloc cfg caller junk s = .eagain ↔ countLive s = cfg.PROCS_MAX) ∧
    (∀ pid s', pid_alloc cfg caller junk s = .ok pid s' →
      (cfg.PID_MIN ≤ pid ∧ pid ≤ cfg.PID_MAX) ∧
      (∀ r ∈ liveRecords s, r.pi_pid ≠ pid) ∧
      s'.nprocs = s.nprocs + 1 ∧ countLive s' = countLive s + 1 ∧
      s'.nprocs ≤ (cfg.PROCS_MAX : Int)) := by
  obtain ⟨hP, hle, _, _⟩ := hWF
  constructor
  · unfold pid_alloc
    split
    · rename_i hfull
      simp only [true_iff, iff_true]
      rw [hcnt] at hfull
      exact_mod_cast hfull
    · rename_i hnfull
      constructor
      · intro h
        split at h <;> simp at h
      · intro h
        rw [hcnt] at hnfull
        exact absurd (by exact_mod_cast h) hnfull
  · intro pid s' hok
    unfold pid_alloc at hok
    split at hok
    · simp at hok
    · rename_i hnfull
      cases hscan : allocScan cfg s.pidinfo (2 * cfg.PROCS_MAX + 5) s.nextpid with
      | none => rw [hscan] at hok; simp at hok
      | some p =>
          rw [hscan] at hok
          dsimp only at hok
          injection hok with h1 h2
          subst h1
          subst h2
          have hrange := allocScan_range cfg hle s.pidinfo _ s.nextpid hnp1 hnp2 p hscan
          have hempty := allocScan_empty cfg s.pidinfo _ s.nextpid p hscan
          have hslot : slotOf cfg p < s.pidinfo.length := by
            rw [hlen]; exact slotOf_lt cfg hP p
          refine ⟨hrange, ?_, ?_, ?_, ?_⟩
          · intro r hr hcontra
            have hmem : (some r) ∈ s.pidinfo := by
              obtain ⟨o, ho, hid⟩ := List.mem_filterMap.mp hr
              cases o with
              | none => simp at hid
              | some q => obtain rfl : q = r := by simpa using hid
                          exact ho
            obtain ⟨j, hjlt, hjget⟩ := getD_eq_some_index s.pidinfo r hmem
            have hj := hslots j hjlt r hjget
            rw [hcontra] at hj
            rw [hj] at hempty
            rw [hjget] at hempty
            simp at hempty
          · rfl
          · show (s.pidinfo.set (slotOf cfg p)
                (some (pidinfo_create p caller junk))).countP (fun o => o.isSome) =
              s.pidinfo.countP (fun o => o.isSome) + 1
            exact countP_set_some s.pidinfo (slotOf cfg p) _ hslot hempty
          · have hlt : countLive s < cfg.PROCS_MAX := by
              have hle2 : countLive s ≤ cfg.PROCS_MAX := by
                rw [← hlen]
                exact List.countP_le_length _
              rcases Nat.lt_or_ge (countLive s) cfg.PROCS_MAX with h | h
              · exact h
              · exfalso
                apply hnfull
                rw [hcnt]
                have hceq : countLive s = cfg.PROCS_MAX := Nat.le_antisymm hle2 h
                exact_mod_cast hceq
            show s.nprocs + 1 ≤ (cfg.PROCS_MAX : Int)
            rw [hcnt]
            omega

/-! ### Evaluation lemmas for pid_join and pid_detach -/

lemma pid_join_eval (cfg : PidConfig) (caller targetpid : Int) (statusNull : Bool)
    (flags : Int) (s : PidState) (t : PidInfo)
    (hWF : cfg.WF) (hr1 : cfg.PID_MIN ≤ targetpid) (hr2 : targetpid ≤ cfg.PID_MAX)
    (hg : pi_get cfg s targetpid = some t) (hnd : t.pi_ppid ≠ cfg.INVALID_PID)
    (hself : targetpid ≠ caller) :
    pid_join cfg caller targetpid statusNull flags s =
      (if t.pi_exited = false then
        (if flags = WNOHANG then
          (if statusNull then ⟨none, 0, none, false, true, s⟩
           else ⟨none, 0, some 0, false, false, s⟩)
         else
          (if statusNull then ⟨none, targetpid, none, true, false, s⟩
           else ⟨none, targetpid, some t.pi_exitstatus, true, false, s⟩))
       else
        (if statusNull then ⟨none, targetpid, none, false, false, s⟩
         else ⟨none, targetpid, some t.pi_exitstatus, false, false, s⟩)) := by
  obtain ⟨_, _, hi, hb⟩ := hWF
  unfold pid_join
  rw [if_neg (by push_neg; refine ⟨by omega, by omega, by omega, by omega⟩)]
  rw [hg]
  dsimp only
  rw [if_neg hnd, if_neg hself]

lemma pi_get_setRecord_self (cfg : PidConfig) (s : PidState) (pid : Int) (r : PidInfo)
    (hlt : slotOf cfg pid < s.pidinfo.length) (hp : r.pi_pid = pid) :
    pi_get cfg (setRecord cfg s pid r) pid = some r := by
  unfold pi_get setRecord
  dsimp only
  rw [getD_set_self _ _ _ hlt]
  simp [hp]

lemma pid_detach_repeat (cfg : PidConfig) (caller childpid : Int) (s : PidState)
    (r : PidInfo) (hWF : cfg.WF) (hmin : cfg.PID_MIN ≤ childpid)
    (hg : pi_get cfg s childpid = some r) (hpp : r.pi_ppid = caller)
    (hcni : caller ≠ cfg.INVALID_PID) :
    (pid_detach cfg caller childpid s).err = none ∧
    (pid_detach cfg caller childpid (pid_detach cfg caller childpid s).s).err =
      some (if r.pi_exited then KErr.ESRCH else KErr.EINVAL) := by
  obtain ⟨_, _, hi, hb⟩ := hWF
  obtain ⟨hpid, hgd, hlt⟩ := pi_get_eq_some hg
  subst hpid
  have hchk : ¬(r.pi_pid = cfg.INVALID_PID ∨ r.pi_pid = cfg.BOOTUP_PID ∨
      r.pi_pid < cfg.PID_MIN) := by
    push_neg
    refine ⟨by omega, by omega, by omega⟩
  have hnd : r.pi_ppid ≠ cfg.INVALID_PID := by rw [hpp]; exact hcni
  have hnc : ¬(r.pi_ppid ≠ caller) := by rw [hpp]; exact fun h => h rfl
  have hfirst : pid_detach cfg caller r.pi_pid s =
      (if r.pi_exited then
        ⟨none,
          { pidinfo := (s.pidinfo.set (slotOf cfg r.pi_pid)
              (some { r with pi_ppid := cfg.INVALID_PID, detached := true })).set
                (slotOf cfg r.pi_pid) none
            nextpid := s.nextpid
            nprocs := s.nprocs - 1 },
          [{ r with pi_ppid := cfg.INVALID_PID, detached := true }]⟩
       else
        ⟨none,
          { pidinfo := s.pidinfo.set (slotOf cfg r.pi_pid)
              (some { r with pi_ppid := cfg.INVALID_PID, detached := true })
            nextpid := s.nextpid
            nprocs := s.nprocs },
          []⟩) := by
    unfold pid_detach
    rw [if_neg hchk, hg]
    dsimp only
    rw [if_neg hnd, if_neg hnc]
    by_cases hex : r.pi_exited = true
    · rw [if_pos hex, if_pos hex]
      unfold pi_drop setRecord
      dsimp only
      rw [getD_set_self _ _ _ hlt]
      rfl
    · rw [if_neg hex, if_neg hex]
      rfl
  refine ⟨?_, ?_⟩
  · rw [hfirst]
    by_cases hex : r.pi_exited = true
    · rw [if_pos hex]
    · rw [if_neg hex]
  · rw [hfirst]
    by_cases hex : r.pi_exited = true
    · rw [if_pos hex, if_pos hex]
      dsimp only
      unfold pid_detach
      rw [if_neg hchk]
      have hnone : pi_get cfg
          ({ pidinfo := (s.pidinfo.set (slotOf cfg r.pi_pid)
              (some { r with pi_ppid := cfg.INVALID_PID, detached := true })).set
                (slotOf cfg r.pi_pid) none
             nextpid := s.nextpid
             nprocs := s.nprocs - 1 } : PidState) r.pi_pid = none := by
        unfold pi_get
        dsimp only
        rw [getD_set_self _ _ _ (by rw [List.length_set]; exact hlt)]
      rw [hnone]
  -- not-exited case
    · rw [if_neg hex, if_neg hex]
      dsimp only
      unfold pid_detach
      rw [if_neg hchk]
      have hsome : pi_get cfg
          ({ pidinfo := s.pidinfo.set (slotOf cfg r.pi_pid)
              (some { r with pi_ppid := cfg.INVALID_PID, detached := true })
             nextpid := s.nextpid
             nprocs := s.nprocs } : PidState) r.pi_pid =
          some { r with pi_ppid := cfg.INVALID_PID, detached := true } := by
        unfold pi_get
        dsimp only
        rw [getD_set_self _ _ _ hlt]
        simp
      rw [hsome]
      dsimp only
      rw [if_pos rfl]

lemma pid_detach_over_max (cfg : PidConfig) (caller childpid : Int) (s : PidState)
    (hWF : cfg.WF) (hover : cfg.PID_MAX < childpid)
    (hbound : ∀ r ∈ liveRecords s, r.pi_pid ≤ cfg.PID_MAX) :
    pid_detach cfg caller childpid s = ⟨some .ESRCH, s, []⟩ := by
  obtain ⟨_, hle, hi, hb⟩ := hWF
  have hnone : pi_get cfg s childpid = none := by
    cases hpg : pi_get cfg s childpid with
    | none => rfl
    | some t =>
        obtain ⟨hpid, hgd, _⟩ := pi_get_eq_some hpg
        have := hbound t (mem_liveRecords_of_getD s _ t hgd)
        omega
  unfold pid_detach
  rw [if_neg (by push_neg; refine ⟨by omega, by omega, by omega⟩), hnone]

/-! ### Concrete fixtures used by counterexamples and witnesses -/

/-- A small concrete configuration: capacity 4, pid range `[2, 9]`,
sentinel 0, bootstrap pid 1. -/
def cfgW : PidConfig := ⟨4, 2, 9, 0, 1⟩

/-- Empty table. -/
def stEmpty : PidState := ⟨[none, none, none, none], 2, 0⟩

/-- The state after a successful allocation of pid 2 (parent 7) from
`stEmpty` when the junk bit is false. -/
def stAlloc : PidState :=
  ⟨[none, none, some ⟨2, 7, false, 0xbaad, false⟩, none], 3, 1⟩

/-- A live (not yet exited) child: pid 3, parent 2. -/
def recLive : PidInfo := ⟨3, 2, false, 0xbaad, false⟩

/-- Table holding only `recLive`. -/
def stLive : PidState := ⟨[none, none, none, some recLive], 4, 1⟩

/-- An exited child: pid 3, parent 2, exit status 42. -/
def recExited : PidInfo := ⟨3, 2, true, 42, false⟩

/-- Table holding only `recExited`. -/
def stExited : PidState := ⟨[none, none, none, some recExited], 4, 1⟩

/-- A process that will call `pid_exit`: pid 2, already orphaned. -/
def recSelf : PidInfo := ⟨2, 0, false, 0xbaad, false⟩

/-- A child of process 2 sitting at pid `PID_MAX = 9` (slot 1). -/
def recMaxChild : PidInfo := ⟨9, 2, false, 0xbaad, false⟩

/-- Table holding process 2 and its child at pid `PID_MAX`. -/
def stMaxChild : PidState := ⟨[none, some recMaxChild, some recSelf, none], 4, 2⟩

/-- Table holding process 2 and its child at pid 3 (inside the loop's
range). -/
def stChild3 : PidState := ⟨[none, none, some recSelf, some recLive], 4, 2⟩

/-! ### Claims -/

/-- Claim C1: on every reclaim path (`pid_detach` of an already-exited
child, `pid_exit` of an already-detached record and of exited children
being disowned, `pid_unalloc`), every record passed to
`pidinfo_destroy` satisfies `pi_exited = true` and
`pi_ppid = INVALID_PID` at the moment of destruction. -/
theorem reclaim_requires_exited_and_orphaned
    (cfg : PidConfig) (s s2 s3 : PidState)
    (caller childpid mypid status caller2 theirpid : Int) (dodetach : Bool) :
    (∀ r ∈ (pid_detach cfg caller childpid s).destroyed, pidinfo_destroy_pre cfg r) ∧
    (∀ r ∈ (pid_exit cfg mypid status dodetach s2).destroyed, pidinfo_destroy_pre cfg r) ∧
    (∀ r ∈ (pid_unalloc cfg caller2 theirpid s3).destroyed, pidinfo_destroy_pre cfg r) :=
  ⟨pid_detach_destroyed cfg caller childpid s,
   pid_exit_destroyed cfg mypid status dodetach s2,
   pid_unalloc_destroyed cfg caller2 theirpid s3⟩

/-- Witness for C1 at a concrete input: detaching the exited child 3
destroys exactly the record `⟨3, 0, true, 42, true⟩`, which satisfies
the destruction precondition. -/
theorem reclaim_requires_exited_and_orphaned_witness :
    pidinfo_destroy_pre cfgW ⟨3, 0, true, 42, true⟩ :=
  (reclaim_requires_exited_and_orphaned cfgW stExited stExited stLive
      2 3 2 0 2 3 false).1 ⟨3, 0, true, 42, true⟩ (by decide)

/-- Claim C2 (code bug): `pidinfo_create` never writes the `detached`
field, so a successful `pid_alloc` can hand out a record whose
`detached` bit is whatever junk the allocator returned (`true` here),
even though `pi_exited`, `pi_ppid` and `pi_exitstatus` are initialized
as the claim says. -/
theorem alloc_leaves_detached_uninitialized :
    pid_alloc cfgW 7 true stEmpty =
      AllocResult.ok 2 ⟨[none, none, some ⟨2, 7, false, 0xbaad, true⟩, none], 3, 1⟩ ∧
    (pidinfo_create 2 7 true).pi_exited = false ∧
    (pidinfo_create 2 7 true).pi_ppid = 7 ∧
    (pidinfo_create 2 7 true).pi_exitstatus = 0xbaad ∧
    (pidinfo_create 2 7 true).detached = true := by
  decide

/-- Claim C3 (code bug): the disown loop of `pid_exit` runs
`for (i = PID_MIN; i < PID_MAX; i++)`, so a child sitting at pid
`PID_MAX` is never visited: after `pid_exit(42, true)` by process 2 it
still has `pi_ppid = 2` and `detached = false`, while a child at an
interior pid (3) is disowned as intended. -/
theorem exit_disown_skips_pid_max :
    (pid_exit cfgW 2 42 true stMaxChild).panicked = false ∧
    pi_get cfgW (pid_exit cfgW 2 42 true stMaxChild).s 9 = some recMaxChild ∧
    recMaxChild.pi_ppid = 2 ∧ recMaxChild.detached = false ∧
    pi_get cfgW (pid_exit cfgW 2 42 true stChild3).s 3 =
      some ⟨3, 0, false, 0xbaad, true⟩ := by
  decide

/-- Claim C4: in a well-formed state (table length `PROCS_MAX`,
`nprocs` equal to the occupied-slot count, slot-consistent records,
cursor in `[PID_MIN, PID_MAX]`), `pid_alloc` returns `EAGAIN` exactly
when the table holds `PROCS_MAX` live records, and every successful
allocation returns a pid in `[PID_MIN, PID_MAX]` distinct from every
live pid, incrementing the live count by one without exceeding
`PROCS_MAX`. -/
theorem alloc_exhaustion_and_fresh_pid
    (cfg : PidConfig) (caller : Int) (junk : Bool) (s : PidState)
    (hWF : cfg.WF) (hlen : s.pidinfo.length = cfg.PROCS_MAX)
    (hcnt : s.nprocs = (countLive s : Int)) (hslots : SlotConsistent cfg s)
    (hnp1 : cfg.PID_MIN ≤ s.nextpid) (hnp2 : s.nextpid ≤ cfg.PID_MAX) :
    (pid_alloc cfg caller junk s = .eagain ↔ countLive s = cfg.PROCS_MAX) ∧
    (∀ pid s', pid_alloc cfg caller junk s = .ok pid s' →
      (cfg.PID_MIN ≤ pid ∧ pid ≤ cfg.PID_MAX) ∧
      (∀ r ∈ liveRecords s, r.pi_pid ≠ pid) ∧
      s'.nprocs = s.nprocs + 1 ∧ countLive s' = countLive s + 1 ∧
      s'.nprocs ≤ (cfg.PROCS_MAX : Int)) :=
  pid_alloc_spec cfg caller junk s hWF hlen hcnt hslots hnp1 hnp2

/-- Witness for C4 at a concrete input: allocating from the empty
4-slot table is not `EAGAIN`, yields pid 2 in range, and bumps the
live count to 1. -/
theorem alloc_exhaustion_and_fresh_pid_witness :
    (pid_alloc cfgW 7 false stEmpty = AllocResult.eagain ↔
      countLive stEmpty = cfgW.PROCS_MAX) ∧
    (cfgW.PID_MIN ≤ 2 ∧ 2 ≤ cfgW.PID_MAX) ∧
    stAlloc.nprocs = stEmpty.nprocs + 1 ∧
    countLive stAlloc = countLive stEmpty + 1 ∧
    stAlloc.nprocs ≤ (cfgW.PROCS_MAX : Int) := by
  have h := alloc_exhaustion_and_fresh_pid cfgW 7 false stEmpty
    (by decide) (by decide) (by decide) (by decide) (by decide) (by decide)
  have h2 := h.2 2 stAlloc (by decide)
  exact ⟨h.1, h2.1, h2.2.2.1, h2.2.2.2.1, h2.2.2.2.2⟩

/-- Counterexample for C5: a non-blocking join of a live, attached,
non-self target does return immediately and without error, but the
caller's status destination IS written (with 0), contradicting the
claim that no status is produced. -/
theorem join_wnohang_no_status_cex :
    (pid_join cfgW 2 3 false WNOHANG stLive).err = none ∧
    (pid_join cfgW 2 3 false WNOHANG stLive).blocked = false ∧
    (pid_join cfgW 2 3 false WNOHANG stLive).wrote = some 0 ∧
    ¬(pid_join cfgW 2 3 false WNOHANG stLive).wrote = none := by
  decide

/-- Claim C5 (amended): a non-blocking join of an existing, attached,
non-self, not-yet-exited target returns 0 ("no result yet", not an
error) immediately without suspending, leaves the table unchanged, and
writes 0 through the (non-null) status destination. -/
theorem join_wnohang_returns_no_result
    (cfg : PidConfig) (caller targetpid flags : Int) (s : PidState) (t : PidInfo)
    (hWF : cfg.WF) (hr1 : cfg.PID_MIN ≤ targetpid) (hr2 : targetpid ≤ cfg.PID_MAX)
    (hg : pi_get cfg s targetpid = some t) (hnd : t.pi_ppid ≠ cfg.INVALID_PID)
    (hself : targetpid ≠ caller) (hex : t.pi_exited = false)
    (hfl : flags = WNOHANG) :
    pid_join cfg caller targetpid false flags s =
      ⟨none, 0, some 0, false, false, s⟩ := by
  rw [pid_join_eval cfg caller targetpid false flags s t hWF hr1 hr2 hg hnd hself]
  simp [hex, hfl]

/-- Witness for C5's amended theorem at a concrete input. -/
theorem join_wnohang_returns_no_result_witness :
    pid_join cfgW 2 3 false WNOHANG stLive = ⟨none, 0, some 0, false, false, stLive⟩ :=
  join_wnohang_returns_no_result cfgW 2 3 WNOHANG stLive recLive
    (by decide) (by decide) (by decide) (by decide) (by decide) (by decide)
    (by decide) rfl

/-- Counterexample for C6: `pid_detach` has no `childpid > PID_MAX`
test, so detaching pid 10 (with `PID_MAX = 9`) falls through to the
table lookup and fails with `ESRCH` (not found), not `EINVAL`. -/
theorem detach_above_pid_max_cex :
    (pid_detach cfgW 2 10 stEmpty).err = some KErr.ESRCH ∧
    ¬(pid_detach cfgW 2 10 stEmpty).err = some KErr.EINVAL := by
  decide

/-- Claim C6 (amended): `pid_detach` returns `EINVAL` and leaves the
table unchanged when `childpid` is the sentinel, the bootstrap pid, or
below `PID_MIN`; for `childpid` above `PID_MAX` there is no range
check, and (since no live record stores a pid above `PID_MAX`) the
call returns `ESRCH`, also leaving the table unchanged. -/
theorem detach_argument_check
    (cfg : PidConfig) (caller childpid : Int) (s : PidState) (hWF : cfg.WF) :
    ((childpid = cfg.INVALID_PID ∨ childpid = cfg.BOOTUP_PID ∨
        childpid < cfg.PID_MIN) →
      pid_detach cfg caller childpid s = ⟨some .EINVAL, s, []⟩) ∧
    (cfg.PID_MAX < childpid → (∀ r ∈ liveRecords s, r.pi_pid ≤ cfg.PID_MAX) →
      pid_detach cfg caller childpid s = ⟨some .ESRCH, s, []⟩) := by
  constructor
  · intro h
    unfold pid_detach
    rw [if_pos h]
  · intro h1 h2
    exact pid_detach_over_max cfg caller childpid s hWF h1 h2

/-- Witness for C6's amended theorem at concrete inputs: the sentinel
pid 0 gives `EINVAL`, the out-of-range pid 10 gives `ESRCH`. -/
theorem detach_argument_check_witness :
    pid_detach cfgW 2 0 stEmpty = ⟨some KErr.EINVAL, stEmpty, []⟩ ∧
    pid_detach cfgW 2 10 stEmpty = ⟨some KErr.ESRCH, stEmpty, []⟩ :=
  ⟨(detach_argument_check cfgW 2 0 stEmpty (by decide)).1 (Or.inl rfl),
   (detach_argument_check cfgW 2 10 stEmpty (by decide)).2 (by decide) (by decide)⟩

/-- Claim C7: joining an existing, attached, non-self target that has
exited returns the stored `pi_exitstatus` (through the status pointer)
and the joined pid as the return value, leaves the table untouched
(join never reclaims), and a repeated join returns the very same
result. -/
theorem join_exited_returns_status_without_reclaim
    (cfg : PidConfig) (caller targetpid flags : Int) (s : PidState) (t : PidInfo)
    (hWF : cfg.WF) (hr1 : cfg.PID_MIN ≤ targetpid) (hr2 : targetpid ≤ cfg.PID_MAX)
    (hg : pi_get cfg s targetpid = some t) (hnd : t.pi_ppid ≠ cfg.INVALID_PID)
    (hself : targetpid ≠ caller) (hex : t.pi_exited = true) :
    pid_join cfg caller targetpid false flags s =
      ⟨none, targetpid, some t.pi_exitstatus, false, false, s⟩ ∧
    pid_join cfg caller targetpid false flags
        (pid_join cfg caller targetpid false flags s).s =
      pid_join cfg caller targetpid false flags s := by
  have h1 : pid_join cfg caller targetpid false flags s =
      ⟨none, targetpid, some t.pi_exitstatus, false, false, s⟩ := by
    rw [pid_join_eval cfg caller targetpid false flags s t hWF hr1 hr2 hg hnd hself]
    simp [hex]
  refine ⟨h1, ?_⟩
  rw [h1]
  exact h1

/-- Witness for C7 at a concrete input: joining the exited child 3
yields `(3, status 42)` twice in a row, with the table unchanged. -/
theorem join_exited_returns_status_without_reclaim_witness :
    pid_join cfgW 2 3 false 0 stExited = ⟨none, 3, some 42, false, false, stExited⟩ :=
  (join_exited_returns_status_without_reclaim cfgW 2 3 0 stExited recExited
      (by decide) (by decide) (by decide) (by decide) (by decide) (by decide)
      (by decide)).1

/-- Counterexample for C8: when the child had already exited, the
first detach reclaims the record, so the second detach fails with
`ESRCH` (not found) rather than the claimed `EINVAL`. -/
theorem detach_repeat_cex :
    (pid_detach cfgW 2 3 stExited).err = none ∧
    (pid_detach cfgW 2 3 (pid_detach cfgW 2 3 stExited).s).err = some KErr.ESRCH ∧
    ¬(pid_detach cfgW 2 3 (pid_detach cfgW 2 3 stExited).s).err = some KErr.EINVAL := by
  decide

/-- Claim C8 (amended): after a first successful `pid_detach` of child
`childpid` by its parent, a second identical call always fails — with
`EINVAL` when the child had not yet exited (the record survives,
marked detached), and with `ESRCH` when it had exited (the first
detach reclaimed the record); it never silently succeeds. -/
theorem detach_never_silently_repeats
    (cfg : PidConfig) (caller childpid : Int) (s : PidState) (r : PidInfo)
    (hWF : cfg.WF) (hmin : cfg.PID_MIN ≤ childpid)
    (hg : pi_get cfg s childpid = some r) (hpp : r.pi_ppid = caller)
    (hcni : caller ≠ cfg.INVALID_PID) :
    (pid_detach cfg caller childpid s).err = none ∧
    (pid_detach cfg caller childpid (pid_detach cfg caller childpid s).s).err =
      some (if r.pi_exited then KErr.ESRCH else KErr.EINVAL) ∧
    ¬(pid_detach cfg caller childpid (pid_detach cfg caller childpid s).s).err =
      none := by
  obtain ⟨h1, h2⟩ := pid_detach_repeat cfg caller childpid s r hWF hmin hg hpp hcni
  refine ⟨h1, h2, ?_⟩
  rw [h2]
  simp

/-- Witness for C8's amended theorem at a concrete input: the child
had not exited, so the second detach fails with `EINVAL`. -/
theorem detach_never_silently_repeats_witness :
    (pid_detach cfgW 2 3 stLive).err = none ∧
    (pid_detach cfgW 2 3 (pid_detach cfgW 2 3 stLive).s).err = some KErr.EINVAL := by
  have h := detach_never_silently_repeats cfgW 2 3 stLive recLive
    (by decide) (by decide) (by decide) (by decide) (by decide)
  exact ⟨h.1, h.2.1⟩

/-- Claim C9 (code bug): `target_parent` acquires the pid lock on
entry and then, on every return path, calls `lock_acquire` again
instead of `lock_release`; it therefore always returns with the lock
still held (net acquire/release balance 1 after a NULL-dereference
crash, 2 on the normal paths), never 0. -/
theorem target_parent_returns_holding_lock
    (cfg : PidConfig) (s : PidState) (targetpid parentpid : Int) :
    ¬(target_parent cfg s targetpid parentpid).lockBalance = 0 ∧
    1 ≤ (target_parent cfg s targetpid parentpid).lockBalance := by
  unfold target_parent
  split
  · exact ⟨by simp, by simp⟩
  · split
    · exact ⟨by simp, by simp⟩
    · exact ⟨by simp, by simp⟩

/-- Claim C10: joining an exited, attached, non-self target with a
NULL status pointer still succeeds — it returns the joined pid, skips
the status write, and performs no NULL dereference. -/
theorem join_null_status_succeeds
    (cfg : PidConfig) (caller targetpid flags : Int) (s : PidState) (t : PidInfo)
    (hWF : cfg.WF) (hr1 : cfg.PID_MIN ≤ targetpid) (hr2 : targetpid ≤ cfg.PID_MAX)
    (hg : pi_get cfg s targetpid = some t) (hnd : t.pi_ppid ≠ cfg.INVALID_PID)
    (hself : targetpid ≠ caller) (hex : t.pi_exited = true) :
    pid_join cfg caller targetpid true flags s =
      ⟨none, targetpid, none, false, false, s⟩ := by
  rw [pid_join_eval cfg caller targetpid true flags s t hWF hr1 hr2 hg hnd hself]
  simp [hex]

/-- Witness for C10 at a concrete input. -/
theorem join_null_status_succeeds_witness :
    pid_join cfgW 2 3 true 0 stExited = ⟨none, 3, none, false, false, stExited⟩ :=
  join_null_status_succeeds cfgW 2 3 0 stExited recExited
    (by decide) (by decide) (by decide) (by decide) (by decide) (by decide)
    (by decide)
